import Mathlib

/-!
Shallow embedding of `src/ssd1681_driver.py` (class `SSD1681`), the SSD1681
e-paper driver. The pixel-buffer state and the drawing operations are
translated directly from the Python source; hardware I/O (SPI writes, pin
toggles, delays) has no effect on the pixel buffers, so the operations that
only perform I/O (`init`, `show`, `sleep`) are identities on the embedded
state, and `show` is additionally modelled by the pair of byte payloads it
transmits to the two controller RAMs.

Conventions:
* a Python `bytearray` is a `List Nat` whose entries are byte values;
* Python ints are `Int` where negatives can occur (coordinates, colors) and
  `Nat` for panel geometry; Python `//` on ints is `Int.fdiv` (floor
  division) and `%` is `Int.emod` (both agree with Python for positive
  divisors);
* `b & ~m` on a bytearray cell (`0 ≤ b < 256`, `m < 256`) equals
  `b &&& (0xFF ^^^ m)`, which is how the clear-bit branch is written here.
-/

/-- Color constants (driver lines 37-39). -/
def COLOR_WHITE : Int := 0

/-- Constant `COLOR_BLACK = 1` (driver line 38). -/
def COLOR_BLACK : Int := 1

/-- Constant `COLOR_RED = 2` (driver line 39). -/
def COLOR_RED : Int := 2

/-- Orientation constants (driver lines 42-45). -/
def ORIENTATION_0 : Nat := 0

/-- Constant `ORIENTATION_90 = 1`. -/
def ORIENTATION_90 : Nat := 1

/-- Constant `ORIENTATION_180 = 2`. -/
def ORIENTATION_180 : Nat := 2

/-- Constant `ORIENTATION_270 = 3`. -/
def ORIENTATION_270 : Nat := 3

/-- Buffer size `self._buffer_size = width * height // 8` (driver line 60); `width` and
`height` are never reassigned, so this is a pure function of the geometry. -/
def bufferSize (width height : Nat) : Nat := width * height / 8

/-- The pixel-buffer state of an `SSD1681` object: the constructor arguments
`width`, `height`, `orientation` (never reassigned) and the two bytearrays
`self.buffer` and `self.red_buffer` (driver lines 49-62). Pins and the SPI
bus are external collaborators and carry no buffer state. -/
@[ext]
structure SSD1681 where
  width : Nat
  height : Nat
  orientation : Nat
  buffer : List Nat
  red_buffer : List Nat
deriving DecidableEq, Repr

namespace SSD1681

/-- Constructor `SSD1681.__init__` (driver lines 49-62): `buffer` starts as
`_buffer_size` bytes of `0xFF` (white background), `red_buffer` as
`_buffer_size` bytes of `0x00`. -/
def mk0 (width height orientation : Nat) : SSD1681 :=
  { width := width
    height := height
    orientation := orientation
    buffer := List.replicate (bufferSize width height) 0xFF
    red_buffer := List.replicate (bufferSize width height) 0x00 }

/-- The orientation transform inside `_map_coordinates` (driver lines
113-132): the chain of `if self.orientation == ...` branches producing
`(hw_x, hw_y)`, with unknown orientations falling back to the
`ORIENTATION_0` formula (lines 129-132). -/
def hwMap (width height orientation : Nat) (x y : Int) : Int × Int :=
  if orientation = 0 then ((width : Int) - 1 - x, (height : Int) - 1 - y)
  else if orientation = 1 then (y, (width : Int) - 1 - x)
  else if orientation = 2 then (x, y)
  else if orientation = 3 then ((height : Int) - 1 - y, x)
  else ((width : Int) - 1 - x, (height : Int) - 1 - y)

/-- Method `SSD1681._map_coordinates` (driver lines 110-137):
`byte_index = (hw_y * width + hw_x) // 8`, `bit_index = hw_x % 8`. -/
def map_coordinates (width height orientation : Nat) (x y : Int) : Int × Int :=
  let p := hwMap width height orientation x y
  (Int.fdiv (p.2 * (width : Int) + p.1) 8, Int.emod p.1 8)

/-- Method `SSD1681._set_pixel_buffer` (driver lines 139-156): bounds-check, map,
then `buffer[byte_index] |= (0x80 >> bit_index)` when `value` and
`buffer[byte_index] &= ~(0x80 >> bit_index)` otherwise. -/
def set_pixel_buffer (width height orientation : Nat) (x y : Int)
    (buf : List Nat) (value : Bool) : List Nat :=
  if 0 ≤ x ∧ x < (width : Int) ∧ 0 ≤ y ∧ y < (height : Int) then
    let p := map_coordinates width height orientation x y
    let byteIndex := p.1.toNat
    let mask := 0x80 >>> p.2.toNat
    if value then
      buf.set byteIndex (buf.getD byteIndex 0 ||| mask)
    else
      buf.set byteIndex (buf.getD byteIndex 0 &&& (0xFF ^^^ mask))
  else
    buf

/-- Method `SSD1681.pixel` (driver lines 217-239): dispatch on the color constant;
any other color value falls through all three branches and does nothing. -/
def pixel (s : SSD1681) (x y : Int) (color : Int) : SSD1681 :=
  if color = COLOR_WHITE then
    { s with
      buffer := set_pixel_buffer s.width s.height s.orientation x y s.buffer true
      red_buffer := set_pixel_buffer s.width s.height s.orientation x y s.red_buffer false }
  else if color = COLOR_BLACK then
    { s with
      buffer := set_pixel_buffer s.width s.height s.orientation x y s.buffer false
      red_buffer := set_pixel_buffer s.width s.height s.orientation x y s.red_buffer false }
  else if color = COLOR_RED then
    { s with
      buffer := set_pixel_buffer s.width s.height s.orientation x y s.buffer true
      red_buffer := set_pixel_buffer s.width s.height s.orientation x y s.red_buffer true }
  else
    s

/-- The write loop `for i in range(n): buf[i] = v` used by `clear`
(driver lines 211-215), unrolled with the last write outermost. -/
def fillN (buf : List Nat) (v : Nat) : Nat → List Nat
  | 0 => buf
  | n + 1 => (fillN buf v n).set n v

/-- Method `SSD1681.clear` (driver lines 208-215): write `0xFF` to
`buffer[0.._buffer_size)` and `0x00` to `red_buffer[0.._buffer_size)`. -/
def clear (s : SSD1681) : SSD1681 :=
  { s with
    buffer := fillN s.buffer 0xFF (bufferSize s.width s.height)
    red_buffer := fillN s.red_buffer 0x00 (bufferSize s.width s.height) }

/-- Method `SSD1681.init` (driver lines 201-206) performs only bus I/O (reset,
SW-reset, RAM configuration, LUT load, busy waits); it never reads or
writes the pixel buffers, so on the embedded state it is the identity. -/
def init (s : SSD1681) : SSD1681 := s

/-- Method `SSD1681.sleep` (driver lines 295-297) only sends the deep-sleep
command; identity on the embedded state. -/
def sleep (s : SSD1681) : SSD1681 := s

/-- The byte payloads `show` hands to the controller (driver lines 281 and
285): `self.buffer` to the B/W RAM (`0x24`) and `self.red_buffer` to the
RED RAM (`0x26`); `show` never mutates the buffers. -/
def showPayloads (s : SSD1681) : List Nat × List Nat :=
  (s.buffer, s.red_buffer)

/-- Method `SSD1681._wait_busy` (driver lines 98-103): poll the busy line,
sleeping 50 ms each iteration, until it deasserts or `timeout_ms` elapses;
return whether the elapsed time stayed below `timeout_ms`. Elapsed time is
modelled as advancing 50 ms per `time.sleep_ms(50)`; `busy t` is the busy
line sampled at elapsed time `t`. -/
def wait_busy_from (busy : Nat → Bool) (timeout_ms : Nat) (t : Nat) : Bool :=
  if h : busy t = true ∧ t < timeout_ms then
    wait_busy_from busy timeout_ms (t + 50)
  else
    decide (t < timeout_ms)
termination_by timeout_ms - t
decreasing_by omega

/-- Method `SSD1681._wait_busy` entry point: elapsed time starts at 0; the default
timeout in the source is 15000 ms. -/
def wait_busy (busy : Nat → Bool) (timeout_ms : Nat) : Bool :=
  wait_busy_from busy timeout_ms 0

/-- Modelled from the spec: the glyph table `FONT_8X8` lives in
`ssd1681_driver_fonts.py`, which is not among the provided sources. The
spec (§3, §4.3) guarantees only its shape: an immutable map from characters
to 8×8 bit patterns with a blank fallback for unmapped characters. It is
therefore modelled as an arbitrary total function from characters to glyph
byte lists (the `.get(char, FONT_8X8[' '])` fallback of driver line 263 is
folded into the function's totality), and every statement about text
rendering is parametric in it. -/
def Font : Type := Char → List Nat

/-- Method `SSD1681._draw_char` (driver lines 261-275): for each source row and
column, if bit `row` of `char_data[7-col]` is set, draw the
`font_size × font_size` block of pixels via `pixel`. The Python `range`
loops become left folds over `List.range`. -/
def draw_char (font : Font) (s : SSD1681) (c : Char) (x y : Int)
    (color : Int) (font_size : Nat) : SSD1681 :=
  let char_data := font c
  (List.range 8).foldl (fun s1 row =>
    (List.range 8).foldl (fun s2 col =>
      if char_data.getD (7 - col) 0 &&& (1 <<< row) ≠ 0 then
        (List.range font_size).foldl (fun s3 scale_row =>
          (List.range font_size).foldl (fun s4 scale_col =>
            pixel s4 (x + (((7 - col) * font_size + scale_col : Nat) : Int))
              (y + ((row * font_size + scale_row : Nat) : Int)) color) s3) s2
      else s2) s1) s

/-- The character loop of `SSD1681.text` (driver lines 255-259), with the
running character index made explicit: `char_x = x + char_index*char_width`;
`break` when `char_x + char_width > self.width`, else draw and continue. -/
def textGo (font : Font) (x y : Int) (color : Int) (font_size : Nat) :
    SSD1681 → List Char → Nat → SSD1681
  | s, [], _ => s
  | s, c :: rest, i =>
    let charX := x + ((i * (8 * font_size) : Nat) : Int)
    if charX + ((8 * font_size : Nat) : Int) > (s.width : Int) then s
    else textGo font x y color font_size
      (draw_char font s c charX y color font_size) rest (i + 1)

/-- Method `SSD1681.text` (driver lines 241-259): `char_width = 8 * font_size`,
then the enumerated character loop. -/
def text (font : Font) (s : SSD1681) (string : List Char) (x y : Int)
    (color : Int) (font_size : Nat) : SSD1681 :=
  textGo font x y color font_size s string 0

/-- Reading back one bit of a plane at a `(byte_index, bit_index)` address:
bit `bit_index` of a byte counts from the most significant bit (the write
masks are `0x80 >> bit_index`), so it sits at binary position
`7 - bit_index`. Returns the bit as `0` or `1`. -/
def readBit (buf : List Nat) (byteIndex bitIndex : Int) : Nat :=
  (buf.getD byteIndex.toNat 0 >>> (7 - bitIndex.toNat)) &&& 1

/-- Well-formedness of a driver state: both bytearrays have the length
`__init__` allocated (driver lines 60-62); no operation resizes them. -/
def WF (s : SSD1681) : Prop :=
  s.buffer.length = bufferSize s.width s.height ∧
  s.red_buffer.length = bufferSize s.width s.height

instance (s : SSD1681) : Decidable (WF s) := by unfold WF; infer_instance

/-- The geometry assumption the orientation transforms rely on: the 90° and
270° transforms exchange the axes, so they hit the physical grid exactly
when the panel is square; every other orientation value (the two straight
transforms and the fallback) needs no constraint. -/
def geomOK (width height orientation : Nat) : Prop :=
  orientation = 1 ∨ orientation = 3 → width = height

/-- Predicate: `t` agrees with `s` on the immutable fields and on buffer lengths: the
frame every drawing operation preserves. -/
def sameShape (t s : SSD1681) : Prop :=
  t.width = s.width ∧ t.height = s.height ∧ t.orientation = s.orientation ∧
  t.buffer.length = s.buffer.length ∧ t.red_buffer.length = s.red_buffer.length

end SSD1681

open SSD1681

/-! ### Helper lemmas -/

/-- Under the geometry assumption, the orientation transform sends an
in-range logical coordinate to an in-range physical coordinate. -/
theorem hwMap_range (w h o : Nat) (x y : Int) (hgeom : geomOK w h o)
    (hx1 : 0 ≤ x) (hx2 : x < (w : Int)) (hy1 : 0 ≤ y) (hy2 : y < (h : Int)) :
    0 ≤ (hwMap w h o x y).1 ∧ (hwMap w h o x y).1 < (w : Int) ∧
    0 ≤ (hwMap w h o x y).2 ∧ (hwMap w h o x y).2 < (h : Int) := by
  unfold hwMap
  split_ifs with h0 h1 h2 h3
  · dsimp only; omega
  · have hwh := hgeom (Or.inl h1); dsimp only; omega
  · dsimp only; omega
  · have hwh := hgeom (Or.inr h3); dsimp only; omega
  · dsimp only; omega

/-- Core byte-index bound: with the panel width a multiple of 8, a
row-major bit address of an in-range physical coordinate lands in a byte
strictly below `bufferSize`. -/
theorem rowMajor_byte_lt (w h a b : Nat) (h8 : 8 ∣ w) (hb : b < w) (ha : a < h) :
    (a * w + b) / 8 < bufferSize w h := by
  obtain ⟨k, rfl⟩ := h8
  have hk : 0 < k := by omega
  have h1 : (a * (8 * k) + b) / 8 = b / 8 + a * k := by
    rw [show a * (8 * k) + b = b + (a * k) * 8 by ring,
      Nat.add_mul_div_right _ _ (by norm_num)]
  have h2 : b / 8 < k := (Nat.div_lt_iff_lt_mul (by norm_num)).2 (by omega)
  have h3 : bufferSize (8 * k) h = k * h := by
    unfold bufferSize
    rw [show 8 * k * h = (k * h) * 8 by ring, Nat.mul_div_cancel _ (by norm_num)]
  rw [h1, h3]
  calc b / 8 + a * k < k + a * k := by omega
    _ = (1 + a) * k := by ring
    _ ≤ h * k := Nat.mul_le_mul_right k (by omega)
    _ = k * h := by ring

/-- Mapping bound: `_map_coordinates` on an in-range input produces a byte index within
the allocated buffer and a bit index in `[0, 8)`. -/
theorem map_coordinates_bounds (w h o : Nat) (x y : Int)
    (h8 : 8 ∣ w) (hgeom : geomOK w h o)
    (hx1 : 0 ≤ x) (hx2 : x < (w : Int)) (hy1 : 0 ≤ y) (hy2 : y < (h : Int)) :
    0 ≤ (map_coordinates w h o x y).1 ∧
    (map_coordinates w h o x y).1 < (bufferSize w h : Int) ∧
    0 ≤ (map_coordinates w h o x y).2 ∧ (map_coordinates w h o x y).2 < 8 := by
  obtain ⟨hp1, hp2, hp3, hp4⟩ := hwMap_range w h o x y hgeom hx1 hx2 hy1 hy2
  unfold map_coordinates
  dsimp only
  set p := hwMap w h o x y with hp
  refine ⟨?_, ?_, Int.emod_nonneg _ (by norm_num), Int.emod_lt_of_pos _ (by norm_num)⟩
  · rw [Int.fdiv_eq_ediv _ (by norm_num)]
    have hnn : 0 ≤ p.2 * (w : Int) + p.1 := by
      have := mul_nonneg hp3 (Int.natCast_nonneg w)
      omega
    exact Int.ediv_nonneg hnn (by norm_num)
  · rw [Int.fdiv_eq_ediv _ (by norm_num)]
    have hcast : p.2 * (w : Int) + p.1 = ((p.2.toNat * w + p.1.toNat : Nat) : Int) := by
      push_cast [Int.toNat_of_nonneg hp3, Int.toNat_of_nonneg hp1]
      ring
    rw [hcast, show ((8 : Int)) = ((8 : Nat) : Int) by norm_num, ← Int.ofNat_ediv]
    have hlt : (p.2.toNat * w + p.1.toNat) / 8 < bufferSize w h := by
      apply rowMajor_byte_lt w h _ _ h8
      · omega
      · omega
    exact_mod_cast hlt

/-- The write mask `0x80 >> j` for a bit index `j < 8` is the single bit at
binary position `7 - j`. -/
theorem mask128 (j : Nat) (hj : j < 8) : 128 >>> j = 2 ^ (7 - j) := by
  interval_cases j <;> rfl

/-- Extracting one bit: `(b >>> k) &&& 1` is `testBit` as a numeral. -/
theorem shiftRight_and_one (b k : Nat) :
    (b >>> k) &&& 1 = if b.testBit k then 1 else 0 := by
  rw [Nat.and_one_is_mod, Nat.shiftRight_eq_div_pow, Nat.testBit_to_div_mod]
  rcases Nat.mod_two_eq_zero_or_one (b / 2 ^ k) with h | h <;> simp [h]

/-- OR-ing in the single bit `2^k` makes bit `k` read back as set. -/
theorem testBit_or_mask (b k : Nat) : (b ||| 2 ^ k).testBit k = true := by
  simp [Nat.testBit_or, Nat.testBit_two_pow_self]

/-- AND-ing with `0xFF ^^^ 2^k` (the byte-level `~mask`) makes bit `k < 8`
read back as clear. -/
theorem testBit_and_clearMask (b k : Nat) (hk : k < 8) :
    (b &&& (255 ^^^ 2 ^ k)).testBit k = false := by
  have hm : (255 ^^^ 2 ^ k).testBit k = false := by
    interval_cases k <;> decide
  simp [Nat.testBit_and, hm]

/-- Reading back the freshly written byte after `_set_pixel_buffer`: the
written bit is exactly `value`. -/
theorem set_pixel_readback (w h o : Nat) (x y : Int) (buf : List Nat) (v : Bool)
    (hlen : buf.length = bufferSize w h) (h8 : 8 ∣ w) (hgeom : geomOK w h o)
    (hx1 : 0 ≤ x) (hx2 : x < (w : Int)) (hy1 : 0 ≤ y) (hy2 : y < (h : Int)) :
    readBit (set_pixel_buffer w h o x y buf v)
      (map_coordinates w h o x y).1 (map_coordinates w h o x y).2
      = if v then 1 else 0 := by
  obtain ⟨hb1, hb2, hb3, hb4⟩ :=
    map_coordinates_bounds w h o x y h8 hgeom hx1 hx2 hy1 hy2
  set p := map_coordinates w h o x y with hp
  have hidx : p.1.toNat < buf.length := by rw [hlen]; omega
  have hbit : p.2.toNat < 8 := by omega
  have hk : 7 - p.2.toNat < 8 := by omega
  unfold set_pixel_buffer readBit
  rw [if_pos ⟨hx1, hx2, hy1, hy2⟩]
  dsimp only [← hp]
  rw [mask128 _ hbit]
  cases v
  · simp only [Bool.false_eq_true, if_false]
    rw [List.getD_eq_getElem?_getD, List.getElem?_set_self hidx, Option.getD_some,
      shiftRight_and_one, testBit_and_clearMask _ _ hk]
    rfl
  · simp only [if_true]
    rw [List.getD_eq_getElem?_getD, List.getElem?_set_self hidx, Option.getD_some,
      shiftRight_and_one, testBit_or_mask]
    rfl

/-- The `clear` write loop preserves the buffer length. -/
theorem fillN_length (buf : List Nat) (v n : Nat) :
    (fillN buf v n).length = buf.length := by
  induction n with
  | zero => rfl
  | succ n ih => simp [fillN, List.length_set, ih]

/-- Entry-wise description of the `clear` write loop. -/
theorem fillN_getElem? (buf : List Nat) (v : Nat) :
    ∀ n, n ≤ buf.length →
      ∀ i, (fillN buf v n)[i]? = if i < n then some v else buf[i]? := by
  intro n
  induction n with
  | zero => intro _ i; simp [fillN]
  | succ n ih =>
    intro hn i
    show ((fillN buf v n).set n v)[i]? = _
    rw [List.getElem?_set, fillN_length]
    by_cases hni : n = i
    · subst hni
      rw [if_pos rfl, if_pos (by omega), if_pos (by omega)]
    · rw [if_neg hni, ih (by omega) i]
      by_cases hilt : i < n
      · rw [if_pos hilt, if_pos (by omega)]
      · rw [if_neg hilt, if_neg (by omega)]

/-- Writing every cell of a buffer turns it into `List.replicate`. -/
theorem fillN_eq_replicate (buf : List Nat) (v : Nat) :
    fillN buf v buf.length = List.replicate buf.length v := by
  apply List.ext_getElem?
  intro i
  rw [fillN_getElem? buf v buf.length le_rfl i, List.getElem?_replicate]
  split_ifs with hi
  · rfl
  · exact List.getElem?_eq_none (by omega)

/-- Reflexivity of `sameShape`. -/
theorem sameShape_refl (s : SSD1681) : sameShape s s :=
  ⟨rfl, rfl, rfl, rfl, rfl⟩

/-- Transitivity of `sameShape`. -/
theorem sameShape_trans {u t s : SSD1681} (h1 : sameShape u t)
    (h2 : sameShape t s) : sameShape u s := by
  obtain ⟨a1, a2, a3, a4, a5⟩ := h1
  obtain ⟨b1, b2, b3, b4, b5⟩ := h2
  exact ⟨a1.trans b1, a2.trans b2, a3.trans b3, a4.trans b4, a5.trans b5⟩

/-- Length preservation: `_set_pixel_buffer` never changes a buffer's length. -/
theorem set_pixel_buffer_length (w h o : Nat) (x y : Int) (buf : List Nat)
    (v : Bool) : (set_pixel_buffer w h o x y buf v).length = buf.length := by
  unfold set_pixel_buffer
  split_ifs <;> simp [List.length_set]

/-- Frame preservation: `pixel` keeps geometry fields and buffer lengths. -/
theorem pixel_sameShape (s : SSD1681) (x y color : Int) :
    sameShape (pixel s x y color) s := by
  unfold pixel
  split_ifs <;>
    exact ⟨rfl, rfl, rfl, by simp [set_pixel_buffer_length], by
      simp [set_pixel_buffer_length]⟩

/-- Folding a frame-preserving step preserves any invariant it preserves. -/
theorem foldl_preserves {α β : Type} (P : α → Prop) (g : α → β → α)
    (hg : ∀ a b, P a → P (g a b)) :
    ∀ (l : List β) (a : α), P a → P (l.foldl g a) := by
  intro l
  induction l with
  | nil => intro a ha; simpa using ha
  | cons b bs ih =>
    intro a ha
    rw [List.foldl_cons]
    exact ih _ (hg a b ha)

/-- Frame preservation for `_draw_char`. -/
theorem draw_char_sameShape (font : Font) (s : SSD1681) (c : Char)
    (x y color : Int) (n : Nat) :
    sameShape (draw_char font s c x y color n) s := by
  unfold draw_char
  apply foldl_preserves (fun t => sameShape t s) _ _ _ _ (sameShape_refl s)
  intro a row ha
  apply foldl_preserves (fun t => sameShape t s) _ _ _ _ ha
  intro a2 col ha2
  split_ifs
  · apply foldl_preserves (fun t => sameShape t s) _ _ _ _ ha2
    intro a3 sr ha3
    apply foldl_preserves (fun t => sameShape t s) _ _ _ _ ha3
    intro a4 sc ha4
    exact sameShape_trans (pixel_sameShape a4 _ _ _) ha4
  · exact ha2

/-- The `text` character loop preserves the frame. -/
theorem textGo_sameShape (font : Font) (x y color : Int) (n : Nat) :
    ∀ (chars : List Char) (i : Nat) (s : SSD1681),
      sameShape (textGo font x y color n s chars i) s := by
  intro chars
  induction chars with
  | nil => intro i s; exact sameShape_refl s
  | cons c rest ih =>
    intro i s
    show sameShape (if _ > ((s.width : Int)) then s else _) s
    split_ifs
    · exact sameShape_refl s
    · exact sameShape_trans (ih (i + 1) _) (draw_char_sameShape font s c _ y color n)

/-- C1: writing a pixel and reading back the mapped bit in each plane gives
BLACK → primary 0 / accent 0, RED → primary 1 / accent 1,
WHITE → primary 1 / accent 0. -/
theorem C1_pixel_roundtrip (s : SSD1681) (x y : Int)
    (hwf : WF s) (h8 : 8 ∣ s.width)
    (hgeom : geomOK s.width s.height s.orientation)
    (hx1 : 0 ≤ x) (hx2 : x < (s.width : Int))
    (hy1 : 0 ≤ y) (hy2 : y < (s.height : Int)) :
    (readBit (pixel s x y COLOR_BLACK).buffer
        (map_coordinates s.width s.height s.orientation x y).1
        (map_coordinates s.width s.height s.orientation x y).2 = 0 ∧
      readBit (pixel s x y COLOR_BLACK).red_buffer
        (map_coordinates s.width s.height s.orientation x y).1
        (map_coordinates s.width s.height s.orientation x y).2 = 0) ∧
    (readBit (pixel s x y COLOR_RED).buffer
        (map_coordinates s.width s.height s.orientation x y).1
        (map_coordinates s.width s.height s.orientation x y).2 = 1 ∧
      readBit (pixel s x y COLOR_RED).red_buffer
        (map_coordinates s.width s.height s.orientation x y).1
        (map_coordinates s.width s.height s.orientation x y).2 = 1) ∧
    (readBit (pixel s x y COLOR_WHITE).buffer
        (map_coordinates s.width s.height s.orientation x y).1
        (map_coordinates s.width s.height s.orientation x y).2 = 1 ∧
      readBit (pixel s x y COLOR_WHITE).red_buffer
        (map_coordinates s.width s.height s.orientation x y).1
        (map_coordinates s.width s.height s.orientation x y).2 = 0) := by
  obtain ⟨hl1, hl2⟩ := hwf
  refine ⟨⟨?_, ?_⟩, ⟨?_, ?_⟩, ⟨?_, ?_⟩⟩
  · have h := set_pixel_readback s.width s.height s.orientation x y s.buffer
      false hl1 h8 hgeom hx1 hx2 hy1 hy2
    simpa [pixel, COLOR_WHITE, COLOR_BLACK, COLOR_RED] using h
  · have h := set_pixel_readback s.width s.height s.orientation x y s.red_buffer
      false hl2 h8 hgeom hx1 hx2 hy1 hy2
    simpa [pixel, COLOR_WHITE, COLOR_BLACK, COLOR_RED] using h
  · have h := set_pixel_readback s.width s.height s.orientation x y s.buffer
      true hl1 h8 hgeom hx1 hx2 hy1 hy2
    simpa [pixel, COLOR_WHITE, COLOR_BLACK, COLOR_RED] using h
  · have h := set_pixel_readback s.width s.height s.orientation x y s.red_buffer
      true hl2 h8 hgeom hx1 hx2 hy1 hy2
    simpa [pixel, COLOR_WHITE, COLOR_BLACK, COLOR_RED] using h
  · have h := set_pixel_readback s.width s.height s.orientation x y s.buffer
      true hl1 h8 hgeom hx1 hx2 hy1 hy2
    simpa [pixel, COLOR_WHITE, COLOR_BLACK, COLOR_RED] using h
  · have h := set_pixel_readback s.width s.height s.orientation x y s.red_buffer
      false hl2 h8 hgeom hx1 hx2 hy1 hy2
    simpa [pixel, COLOR_WHITE, COLOR_BLACK, COLOR_RED] using h

/-- C1 witness: the round-trip theorem applied to a concrete 8-times-8 ROT0 session at (0,0). -/
theorem C1_witness :
    (WF (mk0 8 8 0) ∧ 8 ∣ (8 : Nat) ∧ geomOK 8 8 0 ∧
      (0 : Int) ≤ 0 ∧ (0 : Int) < 8) ∧
    readBit (pixel (mk0 8 8 0) 0 0 COLOR_BLACK).buffer
      (map_coordinates 8 8 0 0 0).1 (map_coordinates 8 8 0 0 0).2 = 0 ∧
    readBit (pixel (mk0 8 8 0) 0 0 COLOR_RED).red_buffer
      (map_coordinates 8 8 0 0 0).1 (map_coordinates 8 8 0 0 0).2 = 1 :=
  ⟨⟨by decide, by decide, fun _ => rfl, by decide, by decide⟩,
   (C1_pixel_roundtrip (mk0 8 8 0) 0 0 (by decide) (by decide) (fun _ => rfl)
      (by decide) (by decide) (by decide) (by decide)).1.1,
   (C1_pixel_roundtrip (mk0 8 8 0) 0 0 (by decide) (by decide) (fun _ => rfl)
      (by decide) (by decide) (by decide) (by decide)).2.1.2⟩

/-- C8: for in-range input, with width divisible by 8 and the orientation's
geometry assumptions, the computed byte index lies in `[0, width*height/8)`,
so the subsequent buffer write never indexes out of bounds. -/
theorem C8_map_bounds (w h o : Nat) (x y : Int) (h8 : 8 ∣ w)
    (hgeom : geomOK w h o)
    (hx1 : 0 ≤ x) (hx2 : x < (w : Int)) (hy1 : 0 ≤ y) (hy2 : y < (h : Int)) :
    0 ≤ (map_coordinates w h o x y).1 ∧
    (map_coordinates w h o x y).1 < (bufferSize w h : Int) ∧
    (map_coordinates w h o x y).1.toNat < (mk0 w h o).buffer.length ∧
    (map_coordinates w h o x y).1.toNat < (mk0 w h o).red_buffer.length := by
  obtain ⟨a, b, _, _⟩ :=
    map_coordinates_bounds w h o x y h8 hgeom hx1 hx2 hy1 hy2
  refine ⟨a, b, ?_, ?_⟩ <;> simp [mk0, List.length_replicate] <;> omega

/-- C8 witness: the bound theorem applied to 200-times-200 ROT0 at (199,199). -/
theorem C8_witness :
    (8 ∣ (200 : Nat) ∧ geomOK 200 200 0 ∧ (0 : Int) ≤ 199 ∧ (199 : Int) < 200) ∧
    0 ≤ (map_coordinates 200 200 0 199 199).1 ∧
    (map_coordinates 200 200 0 199 199).1 < (bufferSize 200 200 : Int) :=
  ⟨⟨by decide, fun _ => rfl, by decide, by decide⟩,
   (C8_map_bounds 200 200 0 199 199 (by decide) (fun _ => rfl)
      (by decide) (by decide) (by decide) (by decide)).1,
   (C8_map_bounds 200 200 0 199 199 (by decide) (fun _ => rfl)
      (by decide) (by decide) (by decide) (by decide)).2.1⟩

/-- C4: for every coordinate outside `[0,width) x [0,height)` and every
color, `pixel` is a silent no-op leaving both plane buffers unchanged. -/
theorem C4_oob_noop (s : SSD1681) (x y color : Int)
    (hoob : ¬ (0 ≤ x ∧ x < (s.width : Int) ∧ 0 ≤ y ∧ y < (s.height : Int))) :
    pixel s x y color = s ∧ (pixel s x y color).buffer = s.buffer ∧
    (pixel s x y color).red_buffer = s.red_buffer := by
  have hsp : ∀ (buf : List Nat) (v : Bool),
      set_pixel_buffer s.width s.height s.orientation x y buf v = buf := by
    intro buf v
    unfold set_pixel_buffer
    rw [if_neg hoob]
  have hp : pixel s x y color = s := by
    unfold pixel
    split_ifs <;> simp only [hsp]
  exact ⟨hp, by rw [hp], by rw [hp]⟩

/-- C4 witness: the no-op theorem applied at the out-of-range call
`pixel(-1, 0, COLOR_BLACK)`. -/
theorem C4_witness :
    (¬ (0 ≤ (-1 : Int) ∧ (-1 : Int) < ((mk0 8 8 0).width : Int) ∧
        0 ≤ (0 : Int) ∧ (0 : Int) < ((mk0 8 8 0).height : Int))) ∧
    pixel (mk0 8 8 0) (-1) 0 COLOR_BLACK = mk0 8 8 0 :=
  ⟨by decide, (C4_oob_noop (mk0 8 8 0) (-1) 0 COLOR_BLACK (by decide)).1⟩

/-- C10: for every coordinate and every color other than the three
enumerated constants, `pixel` leaves both plane buffers unchanged. -/
theorem C10_unknown_color_noop (s : SSD1681) (x y color : Int)
    (hc : color ≠ COLOR_WHITE ∧ color ≠ COLOR_BLACK ∧ color ≠ COLOR_RED) :
    pixel s x y color = s ∧ (pixel s x y color).buffer = s.buffer ∧
    (pixel s x y color).red_buffer = s.red_buffer := by
  obtain ⟨h0, h1, h2⟩ := hc
  have hp : pixel s x y color = s := by
    unfold pixel
    rw [if_neg h0, if_neg h1, if_neg h2]
  exact ⟨hp, by rw [hp], by rw [hp]⟩

/-- C10 witness: the theorem applied at color 3. -/
theorem C10_witness :
    ((3 : Int) ≠ COLOR_WHITE ∧ (3 : Int) ≠ COLOR_BLACK ∧ (3 : Int) ≠ COLOR_RED) ∧
    pixel (mk0 8 8 0) 0 0 3 = mk0 8 8 0 :=
  ⟨⟨by decide, by decide, by decide⟩,
   (C10_unknown_color_noop (mk0 8 8 0) 0 0 3
      ⟨by decide, by decide, by decide⟩).1⟩

theorem clear_buffers (s : SSD1681) (hwf : WF s) :
    (clear s).buffer = List.replicate (bufferSize s.width s.height) 0xFF ∧
    (clear s).red_buffer = List.replicate (bufferSize s.width s.height) 0x00 := by
  obtain ⟨h1, h2⟩ := hwf
  constructor
  · show fillN s.buffer 0xFF (bufferSize s.width s.height) = _
    rw [← h1, fillN_eq_replicate, h1]
  · show fillN s.red_buffer 0x00 (bufferSize s.width s.height) = _
    rw [← h2, fillN_eq_replicate, h2]

theorem clear_WF (s : SSD1681) (hwf : WF s) : WF (clear s) := by
  obtain ⟨hb, hr⟩ := clear_buffers s hwf
  constructor
  · rw [show (clear s).width = s.width from rfl,
      show (clear s).height = s.height from rfl, hb, List.length_replicate]
  · rw [show (clear s).width = s.width from rfl,
      show (clear s).height = s.height from rfl, hr, List.length_replicate]

/-- C5: from any well-formed buffer state, `clear` leaves the primary plane
all `0xFF` and the accent plane all `0x00`, and `clear` is idempotent. -/
theorem C5_clear (s : SSD1681) (hwf : WF s) :
    (clear s).buffer = List.replicate (bufferSize s.width s.height) 0xFF ∧
    (clear s).red_buffer = List.replicate (bufferSize s.width s.height) 0x00 ∧
    clear (clear s) = clear s := by
  obtain ⟨hb, hr⟩ := clear_buffers s hwf
  obtain ⟨hb2, hr2⟩ := clear_buffers (clear s) (clear_WF s hwf)
  refine ⟨hb, hr, ?_⟩
  apply SSD1681.ext
  · rfl
  · rfl
  · rfl
  · rw [hb2, hb]
    exact rfl
  · rw [hr2, hr]
    exact rfl

/-- C5 witness: the clear theorem applied to a concrete 8-times-8 session. -/
theorem C5_witness :
    WF (mk0 8 8 0) ∧
    (clear (mk0 8 8 0)).buffer = List.replicate (bufferSize 8 8) 0xFF ∧
    (clear (mk0 8 8 0)).red_buffer = List.replicate (bufferSize 8 8) 0x00 ∧
    clear (clear (mk0 8 8 0)) = clear (mk0 8 8 0) :=
  ⟨by decide, C5_clear (mk0 8 8 0) (by decide)⟩

theorem hwMap_zero (w h : Nat) (x y : Int) :
    hwMap w h 0 x y = ((w : Int) - 1 - x, (h : Int) - 1 - y) := by
  simp [hwMap]

theorem hwMap_one (w h : Nat) (x y : Int) :
    hwMap w h 1 x y = (y, (w : Int) - 1 - x) := by
  norm_num [hwMap]

theorem hwMap_two (w h : Nat) (x y : Int) : hwMap w h 2 x y = (x, y) := by
  norm_num [hwMap]

theorem hwMap_three (w h : Nat) (x y : Int) :
    hwMap w h 3 x y = ((h : Int) - 1 - y, x) := by
  norm_num [hwMap]

/-- C3: for each of the four orientations, under its geometry assumptions
the logical-to-physical coordinate map is injective on the canvas and
surjective onto the physical grid `[0,w) x [0,h)`. -/
theorem C3_bijection (w h : Nat) (o : Nat)
    (ho : o = 0 ∨ o = 1 ∨ o = 2 ∨ o = 3) (hgeom : geomOK w h o) :
    (∀ x y x2 y2 : Int,
        0 ≤ x ∧ x < (w : Int) ∧ 0 ≤ y ∧ y < (h : Int) →
        0 ≤ x2 ∧ x2 < (w : Int) ∧ 0 ≤ y2 ∧ y2 < (h : Int) →
        hwMap w h o x y = hwMap w h o x2 y2 → x = x2 ∧ y = y2) ∧
    (∀ u v : Int, 0 ≤ u ∧ u < (w : Int) ∧ 0 ≤ v ∧ v < (h : Int) →
        ∃ x y : Int, (0 ≤ x ∧ x < (w : Int) ∧ 0 ≤ y ∧ y < (h : Int)) ∧
          hwMap w h o x y = (u, v)) := by
  rcases ho with h0 | h1 | h2 | h3
  · subst h0
    constructor
    · intro x y x2 y2 hb hb2 heq
      rw [hwMap_zero, hwMap_zero, Prod.mk.injEq] at heq
      omega
    · intro u v hb
      refine ⟨(w : Int) - 1 - u, (h : Int) - 1 - v, by omega, ?_⟩
      rw [hwMap_zero, Prod.mk.injEq]
      omega
  · subst h1
    have hwh := hgeom (Or.inl rfl)
    constructor
    · intro x y x2 y2 hb hb2 heq
      rw [hwMap_one, hwMap_one, Prod.mk.injEq] at heq
      omega
    · intro u v hb
      refine ⟨(w : Int) - 1 - v, u, by omega, ?_⟩
      rw [hwMap_one, Prod.mk.injEq]
      omega
  · subst h2
    constructor
    · intro x y x2 y2 hb hb2 heq
      rw [hwMap_two, hwMap_two, Prod.mk.injEq] at heq
      omega
    · intro u v hb
      exact ⟨u, v, by omega, by rw [hwMap_two]⟩
  · subst h3
    have hwh := hgeom (Or.inr rfl)
    constructor
    · intro x y x2 y2 hb hb2 heq
      rw [hwMap_three, hwMap_three, Prod.mk.injEq] at heq
      omega
    · intro u v hb
      refine ⟨v, (h : Int) - 1 - u, by omega, ?_⟩
      rw [hwMap_three, Prod.mk.injEq]
      omega

/-- C3 witness: the bijection theorem applied to 200-times-200 ROT0. -/
theorem C3_witness :
    ((0 : Nat) = 0 ∨ (0 : Nat) = 1 ∨ (0 : Nat) = 2 ∨ (0 : Nat) = 3) ∧
    geomOK 200 200 0 ∧
    (∀ x y x2 y2 : Int,
        0 ≤ x ∧ x < (200 : Int) ∧ 0 ≤ y ∧ y < (200 : Int) →
        0 ≤ x2 ∧ x2 < (200 : Int) ∧ 0 ≤ y2 ∧ y2 < (200 : Int) →
        hwMap 200 200 0 x y = hwMap 200 200 0 x2 y2 → x = x2 ∧ y = y2) ∧
    (∀ u v : Int, 0 ≤ u ∧ u < (200 : Int) ∧ 0 ≤ v ∧ v < (200 : Int) →
        ∃ x y : Int, (0 ≤ x ∧ x < (200 : Int) ∧ 0 ≤ y ∧ y < (200 : Int)) ∧
          hwMap 200 200 0 x y = (u, v)) :=
  ⟨Or.inl rfl, fun _ => rfl,
   C3_bijection 200 200 0 (Or.inl rfl) (fun _ => rfl)⟩

theorem mk0_WF (w h o : Nat) : WF (mk0 w h o) :=
  ⟨by simp [mk0, List.length_replicate], by simp [mk0, List.length_replicate]⟩

theorem clear_mk0 (w h o : Nat) : clear (mk0 w h o) = mk0 w h o := by
  obtain ⟨hb, hr⟩ := clear_buffers (mk0 w h o) (mk0_WF w h o)
  apply SSD1681.ext
  · rfl
  · rfl
  · rfl
  · rw [hb]; rfl
  · rw [hr]; rfl

/-- C7 counterexample: the source allocates `width*height // 8` (floor)
bytes, so a 3-times-3 panel gets 1 byte, not `ceil(9/8) = 2` as claimed. -/
theorem C7_counterexample : (mk0 3 3 0).buffer.length ≠ (3 * 3 + 7) / 8 := by
  decide

/-- C7 amended: both plane buffers are allocated with equal length
`floor(width*height/8)` bytes, and no operation (`pixel`, `clear`, `text`,
`init`, `sleep`, `show`) ever changes either buffer's length. -/
theorem C7_amended :
    (∀ w h o : Nat, (mk0 w h o).buffer.length = w * h / 8 ∧
        (mk0 w h o).red_buffer.length = w * h / 8) ∧
    (∀ (s : SSD1681) (x y color : Int),
        (pixel s x y color).buffer.length = s.buffer.length ∧
        (pixel s x y color).red_buffer.length = s.red_buffer.length) ∧
    (∀ s : SSD1681, (clear s).buffer.length = s.buffer.length ∧
        (clear s).red_buffer.length = s.red_buffer.length) ∧
    (∀ (font : Font) (s : SSD1681) (str : List Char) (x y color : Int) (n : Nat),
        (text font s str x y color n).buffer.length = s.buffer.length ∧
        (text font s str x y color n).red_buffer.length = s.red_buffer.length) ∧
    (∀ s : SSD1681, init s = s ∧ sleep s = s ∧
        showPayloads s = (s.buffer, s.red_buffer)) := by
  refine ⟨?_, ?_, ?_, ?_, ?_⟩
  · intro w h o
    constructor <;> simp [mk0, List.length_replicate, bufferSize]
  · intro s x y color
    have h := pixel_sameShape s x y color
    exact ⟨h.2.2.2.1, h.2.2.2.2⟩
  · intro s
    exact ⟨fillN_length _ _ _, fillN_length _ _ _⟩
  · intro font s str x y color n
    have h := textGo_sameShape font x y color n str 0 s
    exact ⟨h.2.2.2.1, h.2.2.2.2⟩
  · intro s
    exact ⟨rfl, rfl, rfl⟩

theorem wait_busy_from_never (busy : Nat → Bool) (timeout_ms : Nat)
    (hbusy : ∀ t, t < timeout_ms → busy t = true) :
    ∀ n t, timeout_ms - t ≤ n → wait_busy_from busy timeout_ms t = false := by
  intro n
  induction n with
  | zero =>
    intro t ht
    rw [wait_busy_from]
    have h1 : ¬ (busy t = true ∧ t < timeout_ms) := by
      rintro ⟨_, h2⟩
      omega
    rw [dif_neg h1, decide_eq_false_iff_not]
    omega
  | succ n ih =>
    intro t ht
    rw [wait_busy_from]
    by_cases hcase : busy t = true ∧ t < timeout_ms
    · rw [dif_pos hcase]
      exact ih (t + 50) (by omega)
    · rw [dif_neg hcase, decide_eq_false_iff_not]
      intro hlt
      exact hcase ⟨hbusy t hlt, hlt⟩

/-- C9: the busy-wait is total (it is a terminating function), and when the
busy signal stays asserted throughout the timeout window it returns
`false` (not ready) instead of blocking indefinitely. -/
theorem C9_wait_busy_timeout (busy : Nat → Bool) (timeout_ms : Nat)
    (hbusy : ∀ t, t < timeout_ms → busy t = true) :
    wait_busy busy timeout_ms = false :=
  wait_busy_from_never busy timeout_ms hbusy timeout_ms 0 (by omega)

/-- C9 witness: the timeout theorem applied to an always-busy line with the
default 15000 ms timeout. -/
theorem C9_witness :
    (∀ t, t < 15000 → (fun _ : Nat => true) t = true) ∧
    wait_busy (fun _ : Nat => true) 15000 = false :=
  ⟨fun _ _ => rfl, C9_wait_busy_timeout (fun _ => true) 15000 (fun _ _ => rfl)⟩

theorem mk0_width (w h o : Nat) : (mk0 w h o).width = w := rfl

theorem mk0_height (w h o : Nat) : (mk0 w h o).height = h := rfl

theorem mk0_orientation (w h o : Nat) : (mk0 w h o).orientation = o := rfl

theorem mk0_buffer (w h o : Nat) :
    (mk0 w h o).buffer = List.replicate (bufferSize w h) 0xFF := rfl

theorem mk0_red_buffer (w h o : Nat) :
    (mk0 w h o).red_buffer = List.replicate (bufferSize w h) 0x00 := rfl

theorem set_pixel_buffer_in (w h o : Nat) (x y : Int) (buf : List Nat) (v : Bool)
    (hin : 0 ≤ x ∧ x < (w : Int) ∧ 0 ≤ y ∧ y < (h : Int)) :
    set_pixel_buffer w h o x y buf v =
      (if v then
        buf.set (map_coordinates w h o x y).1.toNat
          (buf.getD (map_coordinates w h o x y).1.toNat 0 |||
            (128 >>> (map_coordinates w h o x y).2.toNat))
      else
        buf.set (map_coordinates w h o x y).1.toNat
          (buf.getD (map_coordinates w h o x y).1.toNat 0 &&&
            (255 ^^^ (128 >>> (map_coordinates w h o x y).2.toNat)))) := by
  unfold set_pixel_buffer
  rw [if_pos hin]

theorem pixel_red (s : SSD1681) (x y : Int) :
    pixel s x y COLOR_RED =
      { s with
        buffer := set_pixel_buffer s.width s.height s.orientation x y s.buffer true
        red_buffer :=
          set_pixel_buffer s.width s.height s.orientation x y s.red_buffer true } := by
  unfold pixel
  norm_num [COLOR_WHITE, COLOR_BLACK, COLOR_RED]

theorem map00 : map_coordinates 200 200 0 0 0 = ((4999 : Int), (7 : Int)) := by
  decide

theorem getD_replicate_lt {n i : Nat} (a d : Nat) (hi : i < n) :
    (List.replicate n a).getD i d = a := by
  rw [List.getD_eq_getElem?_getD, List.getElem?_replicate, if_pos hi]
  rfl

theorem bw_red_payload :
    (showPayloads (pixel (clear (init (mk0 200 200 0))) 0 0 COLOR_RED)).1
      = List.replicate 5000 0xFF := by
  rw [show init (mk0 200 200 0) = mk0 200 200 0 from rfl, clear_mk0, pixel_red]
  show set_pixel_buffer (mk0 200 200 0).width (mk0 200 200 0).height
      (mk0 200 200 0).orientation 0 0 (mk0 200 200 0).buffer true = _
  rw [mk0_width, mk0_height, mk0_orientation, mk0_buffer,
    set_pixel_buffer_in _ _ _ _ _ _ true (by norm_num), if_pos rfl, map00,
    show ((4999 : Int)).toNat = 4999 from rfl,
    show ((7 : Int)).toNat = 7 from rfl,
    show bufferSize 200 200 = 5000 from rfl,
    getD_replicate_lt _ _ (by norm_num),
    show (255 : Nat) ||| 128 >>> 7 = 255 from by decide,
    List.set_replicate_self]

theorem red_red_payload :
    (showPayloads (pixel (clear (init (mk0 200 200 0))) 0 0 COLOR_RED)).2
      = (List.replicate 5000 0x00).set 4999 0x01 := by
  rw [show init (mk0 200 200 0) = mk0 200 200 0 from rfl, clear_mk0, pixel_red]
  show set_pixel_buffer (mk0 200 200 0).width (mk0 200 200 0).height
      (mk0 200 200 0).orientation 0 0 (mk0 200 200 0).red_buffer true = _
  rw [mk0_width, mk0_height, mk0_orientation, mk0_red_buffer,
    set_pixel_buffer_in _ _ _ _ _ _ true (by norm_num), if_pos rfl, map00,
    show ((4999 : Int)).toNat = 4999 from rfl,
    show ((7 : Int)).toNat = 7 from rfl,
    show bufferSize 200 200 = 5000 from rfl,
    getD_replicate_lt _ _ (by norm_num),
    show (0 : Nat) ||| 128 >>> 7 = 1 from by decide]

/-- C2 amended: after `init`, `clear`, `pixel(0,0,RED)` on a 200-times-200
ROT0 session, the B/W payload handed to `show` is `0xFF` in every byte (the
bit addressing mapped (0,0) stays 1, encoding the white background under
red ink), and the RED payload is all `0x00` except that bit set to 1. -/
theorem C2_amended :
    showPayloads (pixel (clear (init (mk0 200 200 0))) 0 0 COLOR_RED)
      = (List.replicate 5000 0xFF, (List.replicate 5000 0x00).set 4999 0x01) := by
  have h1 := bw_red_payload
  have h2 := red_red_payload
  exact Prod.ext h1 h2

/-- C2 counterexample: the claim says the B/W bit addressing mapped (0,0)
is cleared to 0 after `pixel(0,0,RED)`; in fact it reads back 1, and the
whole byte stays `0xFF` (line 238 sets the B/W bit for red ink). -/
theorem C2_counterexample :
    readBit (showPayloads (pixel (clear (init (mk0 200 200 0))) 0 0 COLOR_RED)).1
        (map_coordinates 200 200 ORIENTATION_0 0 0).1
        (map_coordinates 200 200 ORIENTATION_0 0 0).2 = 1 ∧
    (showPayloads (pixel (clear (init (mk0 200 200 0))) 0 0 COLOR_RED)).1.getD
        4999 0 = 0xFF := by
  rw [bw_red_payload]
  constructor
  · rw [show map_coordinates 200 200 ORIENTATION_0 0 0
        = ((4999 : Int), (7 : Int)) from map00]
    unfold readBit
    rw [getD_replicate_lt _ _ (by norm_num)]
    decide
  · rw [getD_replicate_lt _ _ (by norm_num)]

theorem draw_char_width (font : Font) (s : SSD1681) (c : Char) (x y color : Int)
    (n : Nat) : (draw_char font s c x y color n).width = s.width :=
  (draw_char_sameShape font s c x y color n).1

theorem textGo_eq (font : Font) (x y color : Int) (n : Nat) :
    ∀ (chars : List Char) (i : Nat) (s : SSD1681),
      textGo font x y color n s chars i =
        (List.takeWhile
            (fun p : Nat × Char =>
              decide (x + (((p.1 + 1) * (8 * n) : Nat) : Int) ≤ (s.width : Int)))
            (List.enumFrom i chars)).foldl
          (fun st p =>
            draw_char font st p.2 (x + ((p.1 * (8 * n) : Nat) : Int)) y color n)
          s := by
  intro chars
  induction chars with
  | nil => intro i s; rfl
  | cons c rest ih =>
    intro i s
    rw [List.enumFrom_cons, List.takeWhile_cons]
    show (if x + ((i * (8 * n) : Nat) : Int) + ((8 * n : Nat) : Int) > (s.width : Int)
        then s
        else textGo font x y color n
          (draw_char font s c (x + ((i * (8 * n) : Nat) : Int)) y color n)
          rest (i + 1)) = _
    have hsm : ((i + 1) * (8 * n) : Nat) = i * (8 * n) + 8 * n := Nat.succ_mul i (8 * n)
    by_cases hcond :
        x + ((i * (8 * n) : Nat) : Int) + ((8 * n : Nat) : Int) > (s.width : Int)
    · rw [if_pos hcond]
      have hp : (decide (x + (((i + 1) * (8 * n) : Nat) : Int) ≤ (s.width : Int)))
          = false := by
        rw [decide_eq_false_iff_not, hsm, Nat.cast_add]
        omega
      rw [hp]
      simp
    · rw [if_neg hcond, ih (i + 1) _]
      have hp : (decide (x + (((i + 1) * (8 * n) : Nat) : Int) ≤ (s.width : Int)))
          = true := by
        rw [decide_eq_true_eq, hsm, Nat.cast_add]
        omega
      rw [draw_char_width, hp]
      rw [if_pos rfl, List.foldl_cons]

/-- C6: `text` lays characters out left-to-right with fixed advance
`8 * scale` (character `i` drawn at `x + i*8*scale`) and stops at the first
character whose right edge `x + (i+1)*8*scale` would exceed the canvas
width, dropping the rest; on a width-16 canvas, `text` of the eight
characters A through H at scale 2 renders exactly the first character. -/
theorem C6_text_layout (font : Font) (s : SSD1681) (chars : List Char)
    (x y color : Int) (n : Nat) :
    (text font s chars x y color n =
      (List.takeWhile
          (fun p : Nat × Char =>
            decide (x + (((p.1 + 1) * (8 * n) : Nat) : Int) ≤ (s.width : Int)))
          chars.enum).foldl
        (fun st p =>
          draw_char font st p.2 (x + ((p.1 * (8 * n) : Nat) : Int)) y color n)
        s) ∧
    (s.width = 16 →
      text font s ("ABCDEFGH".toList) 0 0 color 2 =
        draw_char font s 'A' 0 0 color 2) := by
  constructor
  · exact textGo_eq font x y color n chars 0 s
  · intro hw
    rw [show text font s ("ABCDEFGH".toList) 0 0 color 2
        = textGo font 0 0 color 2 s ("ABCDEFGH".toList) 0 from rfl,
      textGo_eq font 0 0 color 2 ("ABCDEFGH".toList) 0 s, hw]
    rfl

/-- C6 witness: the layout theorem's width-16 conjunct applied to a
concrete 16-times-16 session and a concrete font. -/
theorem C6_witness :
    ((mk0 16 16 0).width = 16) ∧
    (text (fun _ => List.replicate 8 0) (mk0 16 16 0) ("ABCDEFGH".toList)
        0 0 COLOR_BLACK 2 =
      draw_char (fun _ => List.replicate 8 0) (mk0 16 16 0) 'A' 0 0 COLOR_BLACK 2) :=
  ⟨rfl,
   (C6_text_layout (fun _ => List.replicate 8 0) (mk0 16 16 0)
      ("ABCDEFGH".toList) 0 0 COLOR_BLACK 2).2 rfl⟩
